import Mathlib

/-!
Verification of the `password-vault` repository (a Tauri password vault).

The repository's source tree contains the TypeScript frontend in two variants
(`src/src/App.tsx` and `src/unnamed/part_000`); the Rust vault engine behind the
`invoke` commands is not part of the tree, so the engine is modelled from the
specification (each such definition carries a doc comment starting
"Modelled from the spec:").  Frontend definitions are transcribed from the
TypeScript source.
-/

namespace PasswordVault

/-- Modelled from the spec: the error kinds of §7 of the specification; the Rust
engine that declares them is not in the repository. -/
inductive VaultError where
  | AlreadyInitialized
  | NotInitialized
  | WrongPassphrase
  | VaultLocked
  | NotFound
  | DecryptionFailed
  | InvalidConfig
  | StorageUnavailable
deriving DecidableEq

/-- Modelled from the spec: a derived session key (§4.1).  The KDF of the Rust
engine is not in the repository; a key is modelled as the abstract image of the
(passphrase, salt) pair, which captures that the derived key is a function of
passphrase and salt and that distinct passphrases yield distinct keys. -/
structure SessionKey where
  pass : String
  salt : Nat
deriving DecidableEq

/-- Modelled from the spec: the key-derivation function of the Master Key
Manager (§4.1), abstracted to the injective pairing of passphrase and salt. -/
def kdf (passphrase : String) (salt : Nat) : SessionKey :=
  ⟨passphrase, salt⟩

/-- Modelled from the spec: the MasterKeyRecord of §3 — the stored salt together
with a verifier that lets a passphrase be checked; verification is modelled as
comparing the derived key against the verifier image of the key derived at
init. -/
structure MasterKeyRecord where
  salt : Nat
  verifier : SessionKey
deriving DecidableEq

/-- Modelled from the spec: the Session State Machine states of §4.3:
`Locked` or `Unlocked(key)`. -/
inductive Session where
  | Locked
  | Unlocked (key : SessionKey)
deriving DecidableEq

/-- The decrypted entry record, as both `App.tsx` and `part_000` type it
(`Entry`): id, site, username, password, optional notes, timestamps. -/
structure Entry where
  id : Nat
  site : String
  username : String
  password : String
  notes : Option String
  created_at : Nat
  updated_at : Nat
deriving DecidableEq

/-- The entry summary returned by `list_entries`, as both frontends type it
(`EntryListItem`). -/
structure EntryListItem where
  id : Nat
  site : String
  username : String
  created_at : Nat
  updated_at : Nat
deriving DecidableEq

/-- Modelled from the spec: the whole engine-side vault state — the optional
MasterKeyRecord, the session, the stored entries (kept in decrypted form in the
model; at rest they are sealed under the vault key, and every operation below
refuses to touch them unless the session is Unlocked), and the next id counter
(ids are store-assigned and monotonically increasing, §3). -/
structure Vault where
  record : Option MasterKeyRecord
  session : Session
  entries : List Entry
  nextId : Nat
deriving DecidableEq

/-- Modelled from the spec: `init` of the Master Key Manager (§4.1) as exposed
by the `vault_init` command — fails with `AlreadyInitialized` if a
MasterKeyRecord already exists; otherwise derives the key from the passphrase
with a fresh salt (the random salt is an explicit argument of the model),
persists the record and establishes the first Unlocked session. -/
def vault_init (v : Vault) (master : String) (salt : Nat) : Except VaultError Vault :=
  match v.record with
  | some _ => .error .AlreadyInitialized
  | none =>
      let key := kdf master salt
      .ok { v with record := some ⟨salt, key⟩, session := .Unlocked key }

/-- Modelled from the spec: `unlock` (§4.3/§4.1) as exposed by the
`vault_unlock` command — fails with `NotInitialized` if no MasterKeyRecord
exists, re-derives the key from the stored salt, fails with `WrongPassphrase`
when the derived key does not match the verifier, and only on success
transitions to `Unlocked`. -/
def vault_unlock (v : Vault) (master : String) : Except VaultError Vault :=
  match v.record with
  | none => .error .NotInitialized
  | some r =>
      if kdf master r.salt = r.verifier then
        .ok { v with session := .Unlocked (kdf master r.salt) }
      else
        .error .WrongPassphrase

/-- Modelled from the spec: `lock` (§4.3) as exposed by `vault_lock` — valid
from any state, transitions to `Locked`, discarding the key. -/
def vault_lock (v : Vault) : Vault :=
  { v with session := .Locked }

/-- Modelled from the spec: `is_unlocked` (§4.3) as exposed by
`vault_is_unlocked` — a pure query of the session state. -/
def vault_is_unlocked (v : Vault) : Bool :=
  match v.session with
  | .Locked => false
  | .Unlocked _ => true

/-- Modelled from the spec: `add` of the Entry Store (§4.4) as exposed by
`add_entry` — requires Unlocked (else `VaultLocked`), assigns the next id,
persists the record and sets `created_at = updated_at = now` (the clock is an
explicit argument of the model). -/
def add_entry (v : Vault) (now : Nat) (site username password : String)
    (notes : Option String) : Except VaultError (Vault × Nat) :=
  match v.session with
  | .Locked => .error .VaultLocked
  | .Unlocked _ =>
      let e : Entry := ⟨v.nextId, site, username, password, notes, now, now⟩
      .ok ({ v with entries := v.entries ++ [e], nextId := v.nextId + 1 }, v.nextId)

/-- Modelled from the spec: `get` of the Entry Store (§4.4) as exposed by
`get_entry` — requires Unlocked, fails with `NotFound` if no live record has
that id, otherwise returns the decrypted entry. -/
def get_entry (v : Vault) (id : Nat) : Except VaultError Entry :=
  match v.session with
  | .Locked => .error .VaultLocked
  | .Unlocked _ =>
      match v.entries.find? (fun e => e.id == id) with
      | none => .error .NotFound
      | some e => .ok e

/-- The argument object both frontends send to `update_entry`:
`{id, site, username, password, notes}` with `password` and `notes` nullable. -/
structure UpdateArgs where
  id : Nat
  site : Option String
  username : Option String
  password : Option String
  notes : Option String
deriving DecidableEq

/-- Modelled from the spec: the pure field-merge of `update` (§3/§4.4) —
omitted fields retain the previous value; an empty or omitted password means
"keep current", never "set to empty"; `updated_at` is set to now and
`created_at` and `id` are untouched. -/
def applyUpdate (e : Entry) (args : UpdateArgs) (now : Nat) : Entry :=
  { e with
    site := match args.site with
      | none => e.site
      | some s => s
    username := match args.username with
      | none => e.username
      | some u => u
    password := match args.password with
      | none => e.password
      | some p => if p = "" then e.password else p
    notes := match args.notes with
      | none => e.notes
      | some n => some n
    updated_at := now }

/-- Modelled from the spec: `update` of the Entry Store (§4.4) as exposed by
`update_entry` — requires Unlocked, fails with `NotFound` if the id is absent,
otherwise merges the supplied fields over the existing record via
`applyUpdate` and re-persists it. -/
def update_entry (v : Vault) (now : Nat) (args : UpdateArgs) : Except VaultError Vault :=
  match v.session with
  | .Locked => .error .VaultLocked
  | .Unlocked _ =>
      match v.entries.find? (fun e => e.id == args.id) with
      | none => .error .NotFound
      | some _ =>
          .ok { v with entries :=
                  v.entries.map fun e =>
                    if e.id == args.id then applyUpdate e args now else e }

/-- Modelled from the spec: `delete` of the Entry Store (§4.4) as exposed by
`delete_entry` — requires Unlocked, fails with `NotFound` if absent, removes
the record permanently (the id counter is not decreased, ids are never
reused). -/
def delete_entry (v : Vault) (id : Nat) : Except VaultError Vault :=
  match v.session with
  | .Locked => .error .VaultLocked
  | .Unlocked _ =>
      match v.entries.find? (fun e => e.id == id) with
      | none => .error .NotFound
      | some _ => .ok { v with entries := v.entries.filter (fun e => e.id != id) }

/-- ASCII lower-casing of one character, modelling `toLowerCase` on the ASCII
texts this program handles. -/
def lowerChar (c : Char) : Char :=
  if 'A' ≤ c ∧ c ≤ 'Z' then Char.ofNat (c.toNat + 32) else c

/-- Lower-casing of a string, character by character. -/
def jsToLower (s : String) : String :=
  ⟨s.data.map lowerChar⟩

/-- JavaScript whitespace test for `String.prototype.trim` (the common ASCII
whitespace characters). -/
def isWs (c : Char) : Bool :=
  c == ' ' || c == '\t' || c == '\n' || c == '\r'

/-- `String.prototype.trim`: strip leading and trailing whitespace. -/
def jsTrim (s : String) : String :=
  ⟨(((s.data.dropWhile isWs).reverse.dropWhile isWs).reverse)⟩

/-- `segStarts needle hay`: does `hay` start with `needle`?  Character-list
prefix test used to express the substring containment of JavaScript's
`String.prototype.includes`. -/
def segStarts : List Char → List Char → Bool
  | [], _ => true
  | _ :: _, [] => false
  | a :: as, b :: bs => a == b && segStarts as bs

/-- `segIn needle hay`: does `needle` occur as a contiguous segment of `hay`?
This is the substring containment of `String.prototype.includes`. -/
def segIn (needle : List Char) : List Char → Bool
  | [] => needle.isEmpty
  | c :: tl => segStarts needle (c :: tl) || segIn needle tl

/-- Case-insensitive substring containment on strings: does `hay` contain
`needle`, comparing lower-cased text? -/
def containsCI (hay needle : String) : Bool :=
  segIn (jsToLower needle).data (jsToLower hay).data

/-- Modelled from the spec: the search predicate of `list` (§4.4) — the entry
matches when its site or username contains the search term
case-insensitively. -/
def matchesSearch (term : String) (e : Entry) : Bool :=
  containsCI e.site term || containsCI e.username term

/-- The summary projection of an entry, as `list_entries` returns it to the
frontends. -/
def toSummary (e : Entry) : EntryListItem :=
  ⟨e.id, e.site, e.username, e.created_at, e.updated_at⟩

/-- Modelled from the spec: `list` of the Entry Store (§4.4) as exposed by
`list_entries` — requires Unlocked; an empty or absent search returns all
entries, otherwise exactly those whose site or username contains the term
case-insensitively, in stored (id-ascending) order. -/
def list_entries (v : Vault) (search : Option String) :
    Except VaultError (List EntryListItem) :=
  match v.session with
  | .Locked => .error .VaultLocked
  | .Unlocked _ =>
      match search with
      | none => .ok (v.entries.map toSummary)
      | some t =>
          if t = "" then .ok (v.entries.map toSummary)
          else .ok ((v.entries.filter (matchesSearch t)).map toSummary)

/-- The id-independent content of an entry: a backup is a set of entry
contents, not a patch (§3, BackupBlob). -/
structure EntryContent where
  site : String
  username : String
  password : String
  notes : Option String
deriving DecidableEq

/-- The content projection of a stored entry. -/
def content (e : Entry) : EntryContent :=
  ⟨e.site, e.username, e.password, e.notes⟩

/-- Modelled from the spec: a value sealed by the Cipher Service (§4.2).  The
Rust AEAD construction is not in the repository; it is modelled as an
ideal cipher: the bundle determines the payload only together with the key it
was sealed under, and opening under any other key fails. -/
structure Sealed (α : Type) where
  sealKey : SessionKey
  payload : α
deriving DecidableEq

/-- Modelled from the spec: `seal` of the Cipher Service (§4.2), in the ideal
cipher model. -/
def cipherSeal {α : Type} (k : SessionKey) (plaintext : α) : Sealed α :=
  ⟨k, plaintext⟩

/-- Modelled from the spec: the Cipher Service decryption (§4.2) — fails with
the single kind `DecryptionFailed` whenever the key does not match. -/
def cipherOpen {α : Type} (k : SessionKey) (b : Sealed α) : Except VaultError α :=
  if b.sealKey = k then .ok b.payload else .error .DecryptionFailed

/-- Modelled from the spec: the version marker the Backup Codec prefixes to a
blob (§4.5/§6). -/
def backupVersion : Nat := 1

/-- Modelled from the spec: the self-describing encrypted backup package (§3,
§4.5) — a format/version tag followed by the entry contents sealed under the
session key. -/
structure BackupBlob where
  version : Nat
  sealedEntries : Sealed (List EntryContent)
deriving DecidableEq

/-- Modelled from the spec: `export` of the Backup Codec (§4.5) as exposed by
the `export_backup_bytes` command — requires Unlocked; serializes the full
entry set and seals it under the current session key, prefixing the version
tag. -/
def export_backup (v : Vault) : Except VaultError BackupBlob :=
  match v.session with
  | .Locked => .error .VaultLocked
  | .Unlocked k => .ok ⟨backupVersion, cipherSeal k (v.entries.map content)⟩

/-- Modelled from the spec: inserting imported contents through the Entry
Store's `add` path (§4.5): each content gets the next fresh id and
`created_at = updated_at = now`. -/
def addContents (now : Nat) : Vault → List EntryContent → Vault
  | v, [] => v
  | v, c :: cs =>
      addContents now
        { v with
          entries := v.entries ++
            [⟨v.nextId, c.site, c.username, c.password, c.notes, now, now⟩]
          nextId := v.nextId + 1 } cs

/-- Modelled from the spec: `import` of the Backup Codec (§4.5) as exposed by
the `import_backup_bytes` command — requires Unlocked; rejects an unrecognized
version marker, opens the sealed payload under the current session key
(failing with `DecryptionFailed` if the blob was made under another
passphrase), and re-adds every entry via the store, producing fresh ids;
returns the count of imported entries. -/
def import_backup (v : Vault) (now : Nat) (blob : BackupBlob) :
    Except VaultError (Vault × Nat) :=
  match v.session with
  | .Locked => .error .VaultLocked
  | .Unlocked k =>
      if blob.version ≠ backupVersion then .error .DecryptionFailed
      else
        match cipherOpen k blob.sealedEntries with
        | .error e => .error e
        | .ok cs => .ok (addContents now v cs, cs.length)

/-- Modelled from the spec: the always-included lowercase baseline class of the
Password Generator (§4.6). -/
def lowerChars : List Char := "abcdefghijklmnopqrstuvwxyz".data

/-- Modelled from the spec: the digit class of the Password Generator. -/
def digitChars : List Char := "0123456789".data

/-- Modelled from the spec: the uppercase class of the Password Generator. -/
def upperChars : List Char := "ABCDEFGHIJKLMNOPQRSTUVWXYZ".data

/-- Modelled from the spec: the symbol class of the Password Generator. -/
def symbolChars : List Char := "!@#$%^&*()-_=+[]{};:,.?/".data

/-- Modelled from the spec: the union of the enabled character classes, with
lowercase always included as the baseline (§4.6). -/
def charset (useDigits useUpper useSymbols : Bool) : List Char :=
  lowerChars ++ (if useDigits then digitChars else []) ++
    (if useUpper then upperChars else []) ++
    (if useSymbols then symbolChars else [])

/-- Modelled from the spec: `generate` of the Password Generator (§4.6) as
exposed by `generate_password` — fails with `InvalidConfig` if `length < 1` or
every optional class is disabled; otherwise draws `length` characters from the
union of the enabled classes.  The cryptographically secure random source is
modelled as an input stream `rand` of naturals, reduced modulo the charset
size. -/
def generate_password (length : Nat) (useDigits useUpper useSymbols : Bool)
    (rand : Nat → Nat) : Except VaultError String :=
  if length < 1 then .error .InvalidConfig
  else if !useDigits && !useUpper && !useSymbols then .error .InvalidConfig
  else
    let cs := charset useDigits useUpper useSymbols
    .ok ⟨(List.range length).map fun i => cs.getD (rand i % cs.length) 'a'⟩

/-! ## Frontend model, transcribed from `src/src/App.tsx` and
`src/unnamed/part_000`.

The React state of the `App` component: `unlocked`, `master`, `search`,
`items`, `selected` (the password-draft fields `addPwd`/`editPwd` of the
`App.tsx` variant play no role in the claims and are omitted). -/
structure AppState where
  unlocked : Bool
  master : String
  search : String
  items : List EntryListItem
  selected : Option Entry
deriving DecidableEq

/-- From `reload` in both frontends (`App.tsx` line 58, `part_000` line 40):
the search argument sent to `list_entries` is
`search.trim() ? search : null` — a whitespace-only box becomes `null`,
otherwise the untrimmed text is sent. -/
def searchArg (search : String) : Option String :=
  if jsTrim search = "" then none else some search

/-- From `reload` in both frontends (`App.tsx` lines 53–65, `part_000` lines
35–47): query `vault_is_unlocked`; when unlocked, issue `list_entries` with
`searchArg` and store the result in `items`; when locked, clear `items` and
`selected` without issuing any `list_entries` call.  The second component
records the `list_entries` request that was issued, if any. -/
def reload (st : AppState) (v : Vault) : AppState × Option (Option String) :=
  if vault_is_unlocked v then
    let req := searchArg st.search
    match list_entries v req with
    | .ok l => ({ st with unlocked := true, items := l }, some req)
    | .error _ => ({ st with unlocked := true }, some req)
  else
    ({ st with unlocked := false, items := [], selected := none }, none)

/-- From `handleUnlock` in `src/src/App.tsx` (lines 87–92): an empty master box
is a no-op; otherwise `vault_unlock` is invoked through the rethrowing `call`
wrapper, and only on success are the master box cleared and `reload` run — a
thrown error leaves every piece of frontend state untouched. -/
def handleUnlock (st : AppState) (v : Vault) : AppState × Vault :=
  if jsTrim st.master = "" then (st, v)
  else
    match vault_unlock v st.master with
    | .error _ => (st, v)
    | .ok v' => ((reload { st with master := "" } v').1, v')

/-- Modelled from the spec: the textual rendering of engine errors as they
cross the command boundary is produced by the Rust engine, which is not in the
repository; each kind renders to a distinct human-readable description, the
`AlreadyInitialized` text containing the phrase "already initialized" that
`App.tsx`'s `handleInit` tests for. -/
def errMessage : VaultError → String
  | .AlreadyInitialized => "vault already initialized"
  | .NotInitialized => "vault not initialized"
  | .WrongPassphrase => "wrong passphrase"
  | .VaultLocked => "vault is locked"
  | .NotFound => "entry not found"
  | .DecryptionFailed => "decryption failed"
  | .InvalidConfig => "invalid generator config"
  | .StorageUnavailable => "storage unavailable"

/-- From `handleInit` in `src/src/App.tsx` (line 77): the test
`msg.toLowerCase().includes("already initialized")` applied to an error
message. -/
def msgSaysAlreadyInit (msg : String) : Bool :=
  segIn "already initialized".data (jsToLower msg).data

/-- From `handleInit` in `src/src/App.tsx` (lines 71–85): an empty master box
is a no-op; otherwise `vault_init` is invoked; if it throws and the message
contains "already initialized" (case-insensitively), a `vault_unlock` with the
same master is attempted instead; any other error — or a failing fallback
unlock — is rethrown; on success the master box is cleared and `reload`
runs. -/
def handleInitApp (st : AppState) (v : Vault) (salt : Nat) :
    Except VaultError (AppState × Vault) :=
  if jsTrim st.master = "" then .ok (st, v)
  else
    match vault_init v st.master salt with
    | .ok v' => .ok ((reload { st with master := "" } v').1, v')
    | .error e =>
        if msgSaysAlreadyInit (errMessage e) then
          match vault_unlock v st.master with
          | .ok v' => .ok ((reload { st with master := "" } v').1, v')
          | .error e' => .error e'
        else .error e

/-- From `handleInit` in `src/unnamed/part_000` (lines 53–57): an empty master
box is a no-op; otherwise `vault_init` is invoked with no catch — any engine
error propagates to the caller unchanged; on success `reload` runs (this
variant does not clear the master box). -/
def handleInitPart (st : AppState) (v : Vault) (salt : Nat) :
    Except VaultError (AppState × Vault) :=
  if jsTrim st.master = "" then .ok (st, v)
  else
    match vault_init v st.master salt with
    | .error e => .error e
    | .ok v' => .ok ((reload st v').1, v')

/-- From `handleUpdate` in `src/src/App.tsx` (lines 133–154): the argument
object of the `update_entry` invocation —
`{id, site, username, password: password ? password : null,
notes: notes.length ? notes : null}`. -/
def buildUpdateArgsApp (id : Nat) (site username password notes : String) :
    UpdateArgs :=
  { id := id
    site := some site
    username := some username
    password := if password = "" then none else some password
    notes := if notes.length = 0 then none else some notes }

/-- From `handleUpdate` in `src/unnamed/part_000` (lines 103–120): the argument
object of the `update_entry` invocation —
`{id, site, username, password: password ? password : null,
notes: notes.length ? notes : null}`. -/
def buildUpdateArgsPart (id : Nat) (site username password notes : String) :
    UpdateArgs :=
  { id := id
    site := some site
    username := some username
    password := if password = "" then none else some password
    notes := if notes.length = 0 then none else some notes }

/-- From `handleAdd` in `src/src/App.tsx` (lines 99–119): `add_entry` is
invoked with the form fields (notes sent as `notes.trim() ? notes : null`);
on success the search box is cleared, `reload` runs (its closure still reads
the pre-clear search value), the just-returned id is immediately fetched with
`get_entry`, and the fetched entry becomes `selected`. -/
def handleAddApp (st : AppState) (v : Vault) (now : Nat)
    (site username password notes : String) :
    Except VaultError (AppState × Vault) :=
  match add_entry v now site username password
      (if jsTrim notes = "" then none else some notes) with
  | .error e => .error e
  | .ok (v', id) =>
      let st' := (reload st v').1
      match get_entry v' id with
      | .error e => .error e
      | .ok ent => .ok ({ st' with search := "", selected := some ent }, v')

/-- From `generate` in `src/src/App.tsx` (lines 161–178) and `part_000` (lines
127–136): the Generate buttons always invoke `generate_password` with
`length = 20` and every character-class flag true. -/
def generateRequest (rand : Nat → Nat) : Except VaultError String :=
  generate_password 20 true true true rand

/-- From `exportBackup` in `src/src/App.tsx` (lines 180–187): the bytes
received from `export_backup_bytes` are written to the chosen file
unmodified. -/
def exportFileBytes (bytes : List Nat) : List Nat := bytes

/-- From `importBackup` in `src/src/App.tsx` (lines 189–200): the bytes read
from the chosen file are sent to `import_backup_bytes` as
`Array.from(bytes)` — the same byte sequence, reboxed as a plain array. -/
def importRequestBytes (bytes : List Nat) : List Nat := bytes

/-! ## Helper lemmas -/

/-- `applyUpdate` never changes the entry's id. -/
theorem applyUpdate_id (e : Entry) (args : UpdateArgs) (now : Nat) :
    (applyUpdate e args now).id = e.id := rfl

/-- `applyUpdate` never changes the entry's creation time. -/
theorem applyUpdate_created_at (e : Entry) (args : UpdateArgs) (now : Nat) :
    (applyUpdate e args now).created_at = e.created_at := rfl

/-- `find?` commutes with mapping a function that preserves the predicate. -/
theorem find?_map_comm {α : Type} (f : α → α) (p : α → Bool)
    (h : ∀ x, p (f x) = p x) :
    ∀ l : List α, (l.map f).find? p = (l.find? p).map f := by
  intro l
  induction l with
  | nil => rfl
  | cons a l ih =>
      cases hpa : p a with
      | true => simp [List.find?_cons, h a, hpa]
      | false => simp [List.find?_cons, h a, hpa, ih]

/-- The per-entry rewrite `update_entry` applies preserves ids. -/
theorem updateFun_id (args : UpdateArgs) (now : Nat) (x : Entry) :
    (if x.id == args.id then applyUpdate x args now else x).id = x.id := by
  split <;> rfl

/-- A successful `get_entry` exposes the underlying `find?`. -/
theorem get_entry_find {v : Vault} {k : SessionKey} {id : Nat} {e : Entry}
    (hv : v.session = .Unlocked k) (hget : get_entry v id = .ok e) :
    v.entries.find? (fun x => x.id == id) = some e := by
  simp only [get_entry, hv] at hget
  cases hf : v.entries.find? (fun x => x.id == id) with
  | none => rw [hf] at hget; cases hget
  | some e' => rw [hf] at hget; cases hget; rfl

/-- Updating through an existing id succeeds and a subsequent `get_entry`
returns exactly the field-merged record. -/
theorem get_after_update {v : Vault} {k : SessionKey} {id : Nat} {e : Entry}
    (hv : v.session = .Unlocked k) (hget : get_entry v id = .ok e)
    (args : UpdateArgs) (hid : args.id = id) (now : Nat) :
    ∃ v', update_entry v now args = .ok v' ∧ v'.session = v.session ∧
      get_entry v' id = .ok (applyUpdate e args now) := by
  subst hid
  have hfind := get_entry_find hv hget
  have hpe : (e.id == args.id) = true :=
    @List.find?_some Entry (fun x => x.id == args.id) e v.entries hfind
  refine ⟨{ v with entries :=
      v.entries.map fun x => if x.id == args.id then applyUpdate x args now else x },
    ?_, rfl, ?_⟩
  · simp only [update_entry, hv, hfind]
  · simp only [get_entry, hv]
    rw [find?_map_comm _ _ (fun x => by rw [updateFun_id]), hfind]
    simp only [Option.map_some']
    rw [if_pos hpe]

/-- Adding an entry to an unlocked vault whose stored ids are all below the id
counter, then reading the returned id back, yields exactly the new record. -/
theorem get_after_add {v : Vault} {k : SessionKey}
    (hv : v.session = .Unlocked k)
    (hids : ∀ e ∈ v.entries, e.id < v.nextId)
    (now : Nat) (site username password : String) (notes : Option String) :
    add_entry v now site username password notes =
      .ok ({ v with
             entries := v.entries ++ [⟨v.nextId, site, username, password, notes, now, now⟩]
             nextId := v.nextId + 1 }, v.nextId) ∧
    get_entry { v with
                entries := v.entries ++ [⟨v.nextId, site, username, password, notes, now, now⟩]
                nextId := v.nextId + 1 } v.nextId =
      .ok ⟨v.nextId, site, username, password, notes, now, now⟩ := by
  have hnone : v.entries.find? (fun x => x.id == v.nextId) = none := by
    rw [List.find?_eq_none]
    intro x hx
    simp only [beq_iff_eq]
    exact Nat.ne_of_lt (hids x hx)
  constructor
  · simp [add_entry, hv]
  · simp [get_entry, hv, List.find?_append, hnone, List.find?_cons]

/-- Opening a sealed value under the sealing key recovers the plaintext. -/
theorem cipherOpen_cipherSeal {α : Type} (k : SessionKey) (x : α) :
    cipherOpen k (cipherSeal k x) = .ok x := by
  simp [cipherOpen, cipherSeal]

/-- `addContents` appends exactly the given contents (with fresh ids). -/
theorem addContents_entries (now : Nat) :
    ∀ (cs : List EntryContent) (v : Vault),
      (addContents now v cs).entries.map content = v.entries.map content ++ cs := by
  intro cs
  induction cs with
  | nil => intro v; simp [addContents]
  | cons c cs ih =>
      intro v
      rw [addContents, ih]
      simp [content]

/-- `addContents` leaves the session untouched. -/
theorem addContents_session (now : Nat) :
    ∀ (cs : List EntryContent) (v : Vault),
      (addContents now v cs).session = v.session := by
  intro cs
  induction cs with
  | nil => intro v; rfl
  | cons c cs ih => intro v; rw [addContents, ih]

/-- Every entry present after `addContents` is either an old entry or carries a
fresh id at or above the old id counter. -/
theorem addContents_mem (now : Nat) :
    ∀ (cs : List EntryContent) (v : Vault) (e : Entry),
      e ∈ (addContents now v cs).entries → e ∈ v.entries ∨ v.nextId ≤ e.id := by
  intro cs
  induction cs with
  | nil => intro v e he; exact Or.inl he
  | cons c cs ih =>
      intro v e he
      rw [addContents] at he
      rcases ih _ e he with hmem | hge
      · rcases List.mem_append.mp hmem with hold | hnew
        · exact Or.inl hold
        · right
          rw [List.mem_singleton.mp hnew]
      · exact Or.inr (Nat.le_of_succ_le hge)

/-- The `notes` field both frontends put into the update arguments is never the
empty string: it is `none` or a non-empty string. -/
theorem notesArg_dichotomy (notes : String) :
    (if notes.length = 0 then (none : Option String) else some notes) = none ∨
    ∃ s, (if notes.length = 0 then (none : Option String) else some notes) = some s ∧
      s ≠ "" := by
  by_cases h0 : notes.length = 0
  · left
    simp [h0]
  · right
    exact ⟨notes, by simp [h0], fun hc => h0 (by rw [hc]; rfl)⟩

/-! ## Concrete data for the witness instances -/

/-- A concrete session key. -/
def sampleKey : SessionKey := ⟨"hunter2", 7⟩

/-- A concrete stored entry. -/
def sampleEntry : Entry := ⟨1, "example.com", "alice", "pw1", some "team", 100, 100⟩

/-- A concrete initialized, unlocked vault holding `sampleEntry`. -/
def sampleVault : Vault := ⟨some ⟨7, sampleKey⟩, .Unlocked sampleKey, [sampleEntry], 2⟩

/-- A concrete frontend state with the master box filled in. -/
def sampleState : AppState := ⟨false, "hunter2", "", [], none⟩

/-! ## The claims -/

/-- C3: after `lock()` every Entry Store operation (and the backup operations)
fails with `VaultLocked` regardless of prior unlocked state, `vault_is_unlocked`
reports false, and the frontend's `reload` then resets the item list and the
selected entry to empty without issuing any `list_entries` call. -/
theorem lock_then_operations_fail (v : Vault) (st : AppState) (now id : Nat)
    (args : UpdateArgs) (site username password : String) (notes : Option String)
    (search : Option String) (blob : BackupBlob) :
    add_entry (vault_lock v) now site username password notes = .error .VaultLocked ∧
    get_entry (vault_lock v) id = .error .VaultLocked ∧
    update_entry (vault_lock v) now args = .error .VaultLocked ∧
    delete_entry (vault_lock v) id = .error .VaultLocked ∧
    list_entries (vault_lock v) search = .error .VaultLocked ∧
    export_backup (vault_lock v) = .error .VaultLocked ∧
    import_backup (vault_lock v) now blob = .error .VaultLocked ∧
    vault_is_unlocked (vault_lock v) = false ∧
    reload st (vault_lock v) =
      ({ st with unlocked := false, items := [], selected := none }, none) :=
  ⟨rfl, rfl, rfl, rfl, rfl, rfl, rfl, rfl, rfl⟩

/-- C7: the generator call the frontends' Generate buttons always issue
(length 20, all classes enabled) returns a string of length exactly 20 drawn
only from the enabled classes, for every random stream; a call with length 0,
or with every optional class disabled, fails with `InvalidConfig`. -/
theorem generate_password_length_and_classes :
    (∀ rand : Nat → Nat, ∃ s, generateRequest rand = .ok s ∧
        s.length = 20 ∧ ∀ c ∈ s.data, c ∈ charset true true true) ∧
    (∀ (rand : Nat → Nat) (useDigits useUpper useSymbols : Bool),
        generate_password 0 useDigits useUpper useSymbols rand =
          .error .InvalidConfig) ∧
    (∀ (rand : Nat → Nat) (length : Nat),
        generate_password length false false false rand = .error .InvalidConfig) := by
  refine ⟨?_, ?_, ?_⟩
  · intro rand
    refine ⟨_, rfl, ?_, ?_⟩
    · show ((List.range 20).map _).length = 20
      rw [List.length_map, List.length_range]
    · intro c hc
      rcases List.mem_map.mp hc with ⟨i, _, hfi⟩
      rw [← hfi]
      have hlen : 0 < (charset true true true).length := by decide
      have hlt : rand i % (charset true true true).length <
          (charset true true true).length := Nat.mod_lt _ hlen
      rw [List.getD_eq_getElem _ _ hlt]
      exact List.getElem_mem hlt
  · intro rand useDigits useUpper useSymbols
    rfl
  · intro rand length
    by_cases h : length < 1
    · simp [generate_password, h]
    · simp [generate_password, h]

/-- C9: in both frontend variants the `notes` argument of the `update_entry`
request is either null or a non-empty string — never the empty string — so the
"empty means keep" convention silently extends to notes: with an empty notes
box the merged record keeps its stored notes, and stored notes can never be
cleared to empty through the edit form. -/
theorem update_notes_never_empty_string (id : Nat)
    (site username password notes : String) (e : Entry) (now : Nat) :
    ((buildUpdateArgsApp id site username password notes).notes = none ∨
      ∃ s, (buildUpdateArgsApp id site username password notes).notes = some s ∧
        s ≠ "") ∧
    ((buildUpdateArgsPart id site username password notes).notes = none ∨
      ∃ s, (buildUpdateArgsPart id site username password notes).notes = some s ∧
        s ≠ "") ∧
    (applyUpdate e (buildUpdateArgsApp id site username password "") now).notes =
      e.notes :=
  ⟨notesArg_dichotomy notes, notesArg_dichotomy notes, rfl⟩

/-- C10: the two frontend variants construct identical `update_entry` argument
objects for every combination of form values. -/
theorem update_args_variants_agree (id : Nat)
    (site username password notes : String) :
    buildUpdateArgsApp id site username password notes =
      buildUpdateArgsPart id site username password notes := rfl

/-- A concrete locked vault holding `sampleEntry`. -/
def sampleLocked : Vault := ⟨some ⟨7, sampleKey⟩, .Locked, [sampleEntry], 2⟩

/-- A concrete frontend state whose master box holds a wrong passphrase. -/
def sampleWrongState : AppState := ⟨false, "wrong", "", [], none⟩

/-- C2: a failed unlock leaves the session Locked and keeps no partial state:
the engine reports only `WrongPassphrase` or `NotInitialized`, and the
frontend's `handleUnlock` leaves the whole state pair untouched — the unlocked
flag, the entered passphrase, the items and the vault are exactly as before,
and no reload happens. -/
theorem failed_unlock_leaves_state_untouched (st : AppState) (v : Vault)
    (e : VaultError) (hfail : vault_unlock v st.master = .error e) :
    handleUnlock st v = (st, v) ∧
    (e = .WrongPassphrase ∨ e = .NotInitialized) ∧
    (handleUnlock st v).1.unlocked = st.unlocked ∧
    (handleUnlock st v).1.master = st.master ∧
    (v.session = .Locked → (handleUnlock st v).2.session = .Locked) := by
  have hres : handleUnlock st v = (st, v) := by
    unfold handleUnlock
    by_cases hm : jsTrim st.master = ""
    · simp [hm]
    · simp [hm, hfail]
  have hkind : e = .WrongPassphrase ∨ e = .NotInitialized := by
    cases hr : v.record with
    | none =>
        simp only [vault_unlock, hr, Except.error.injEq] at hfail
        right
        exact hfail.symm
    | some r =>
        simp only [vault_unlock, hr] at hfail
        by_cases hk : kdf st.master r.salt = r.verifier
        · rw [if_pos hk] at hfail
          cases hfail
        · rw [if_neg hk] at hfail
          simp only [Except.error.injEq] at hfail
          left
          exact hfail.symm
  exact ⟨hres, hkind, by rw [hres], by rw [hres], fun h => by rw [hres]; exact h⟩

/-- Witness for C2 at a concrete locked vault and wrong passphrase. -/
theorem failed_unlock_witness :
    vault_unlock sampleLocked sampleWrongState.master = .error .WrongPassphrase ∧
    (handleUnlock sampleWrongState sampleLocked = (sampleWrongState, sampleLocked) ∧
      (VaultError.WrongPassphrase = VaultError.WrongPassphrase ∨
        VaultError.WrongPassphrase = VaultError.NotInitialized) ∧
      (handleUnlock sampleWrongState sampleLocked).1.unlocked =
        sampleWrongState.unlocked ∧
      (handleUnlock sampleWrongState sampleLocked).1.master =
        sampleWrongState.master ∧
      (sampleLocked.session = .Locked →
        (handleUnlock sampleWrongState sampleLocked).2.session = .Locked)) :=
  ⟨rfl, failed_unlock_leaves_state_untouched sampleWrongState sampleLocked
    .WrongPassphrase rfl⟩

/-- C6: `vault_init` on an already-initialized vault fails with
`AlreadyInitialized`; error kinds render to pairwise distinct messages, so the
caller can tell them apart; the `App.tsx` frontend recognizes exactly the
"already initialized" text and converts that failure into an unlock attempt,
while the `part_000` variant surfaces the error unchanged. -/
theorem init_errors_distinguishable (v : Vault) (r : MasterKeyRecord)
    (hr : v.record = some r) (st : AppState) (salt : Nat) (master : String) :
    vault_init v master salt = .error .AlreadyInitialized ∧
    (∀ e1 e2 : VaultError, errMessage e1 = errMessage e2 → e1 = e2) ∧
    msgSaysAlreadyInit (errMessage .AlreadyInitialized) = true ∧
    (jsTrim st.master ≠ "" →
      handleInitPart st v salt = .error .AlreadyInitialized ∧
      ∀ v', vault_unlock v st.master = .ok v' →
        handleInitApp st v salt = .ok ((reload { st with master := "" } v').1, v')) := by
  have hinit : ∀ m s, vault_init v m s = .error .AlreadyInitialized := by
    intro m s
    unfold vault_init
    rw [hr]
  have hmsg : msgSaysAlreadyInit (errMessage .AlreadyInitialized) = true := by decide
  refine ⟨hinit master salt, ?_, hmsg, ?_⟩
  · intro e1 e2 h
    cases e1 <;> cases e2 <;> revert h <;> decide
  · intro hm
    constructor
    · unfold handleInitPart
      rw [if_neg hm, hinit]
    · intro v' hunlock
      simp only [handleInitApp, if_neg hm, hinit, hmsg, if_true, hunlock]

/-- Witness for C6 at the concrete initialized vault, with the correct master
in the box. -/
theorem init_errors_witness :
    sampleVault.record = some ⟨7, sampleKey⟩ ∧
    (vault_init sampleVault "hunter2" 3 = .error .AlreadyInitialized ∧
      (∀ e1 e2 : VaultError, errMessage e1 = errMessage e2 → e1 = e2) ∧
      msgSaysAlreadyInit (errMessage .AlreadyInitialized) = true ∧
      (jsTrim sampleState.master ≠ "" →
        handleInitPart sampleState sampleVault 3 = .error .AlreadyInitialized ∧
        ∀ v', vault_unlock sampleVault sampleState.master = .ok v' →
          handleInitApp sampleState sampleVault 3 =
            .ok ((reload { sampleState with master := "" } v').1, v'))) :=
  ⟨rfl, init_errors_distinguishable sampleVault ⟨7, sampleKey⟩ rfl sampleState 3
    "hunter2"⟩

/-- C8: a whitespace-only search box is sent as an absent (null) search; an
absent or empty search lists all entries; a non-empty search term returns
exactly the entries whose site or username contains the term
case-insensitively. -/
theorem search_filter_semantics (v : Vault) (k : SessionKey)
    (hv : v.session = .Unlocked k) (box : String) (hbox : jsTrim box = "") :
    searchArg box = none ∧
    list_entries v none = .ok (v.entries.map toSummary) ∧
    list_entries v (some "") = .ok (v.entries.map toSummary) ∧
    ∀ t : String, t ≠ "" → ∃ l, list_entries v (some t) = .ok l ∧
      ∀ s, s ∈ l ↔ ∃ e ∈ v.entries,
        (containsCI e.site t || containsCI e.username t) = true ∧
        s = toSummary e := by
  refine ⟨by simp [searchArg, hbox], by simp [list_entries, hv],
    by simp [list_entries, hv], ?_⟩
  intro t ht
  refine ⟨(v.entries.filter (matchesSearch t)).map toSummary, ?_, ?_⟩
  · simp only [list_entries, hv]
    rw [if_neg ht]
  · intro s
    constructor
    · intro hs
      rcases List.mem_map.mp hs with ⟨e, hef, hes⟩
      rcases List.mem_filter.mp hef with ⟨hev, hmatch⟩
      exact ⟨e, hev, hmatch, hes.symm⟩
    · rintro ⟨e, hev, hmatch, rfl⟩
      exact List.mem_map.mpr ⟨e, List.mem_filter.mpr ⟨hev, hmatch⟩, rfl⟩

/-- Witness for C8 at the concrete unlocked vault and a whitespace-only
search box. -/
theorem search_filter_witness :
    sampleVault.session = .Unlocked sampleKey ∧ jsTrim "   " = "" ∧
    (searchArg "   " = none ∧
      list_entries sampleVault none = .ok (sampleVault.entries.map toSummary) ∧
      list_entries sampleVault (some "") =
        .ok (sampleVault.entries.map toSummary) ∧
      ∀ t : String, t ≠ "" → ∃ l, list_entries sampleVault (some t) = .ok l ∧
        ∀ s, s ∈ l ↔ ∃ e ∈ sampleVault.entries,
          (containsCI e.site t || containsCI e.username t) = true ∧
          s = toSummary e) :=
  ⟨rfl, rfl, search_filter_semantics sampleVault sampleKey rfl "   " rfl⟩

/-- C1: the `App.tsx` edit form sends `password = null` whenever the password
box is the empty string, and the engine treats an absent password as "no
change": the stored password survives the update while `updated_at` is bumped
above `created_at`; any non-empty supplied field (site, username, password)
overwrites the stored value. -/
theorem update_empty_password_means_keep (v : Vault) (k : SessionKey)
    (id now : Nat) (e : Entry) (hv : v.session = .Unlocked k)
    (hget : get_entry v id = .ok e) (hnow : e.created_at < now)
    (site username password notes : String) :
    (buildUpdateArgsApp id site username "" notes).password = none ∧
    (∃ v', update_entry v now (buildUpdateArgsApp id site username "" notes) =
        .ok v' ∧
      ∃ e', get_entry v' id = .ok e' ∧ e'.password = e.password ∧
        e'.created_at = e.created_at ∧ e'.updated_at = now ∧
        e'.created_at < e'.updated_at) ∧
    (password ≠ "" →
      ∃ v', update_entry v now
          (buildUpdateArgsApp id site username password notes) = .ok v' ∧
        ∃ e', get_entry v' id = .ok e' ∧ e'.password = password ∧
          e'.site = site ∧ e'.username = username ∧
          e'.created_at = e.created_at ∧ e'.updated_at = now ∧
          e'.created_at < e'.updated_at) := by
  refine ⟨rfl, ?_, ?_⟩
  · obtain ⟨v', hupd, hsess, hget'⟩ :=
      get_after_update hv hget (buildUpdateArgsApp id site username "" notes) rfl now
    exact ⟨v', hupd, applyUpdate e _ now, hget', rfl, rfl, rfl, hnow⟩
  · intro hp
    obtain ⟨v', hupd, hsess, hget'⟩ :=
      get_after_update hv hget (buildUpdateArgsApp id site username password notes)
        rfl now
    refine ⟨v', hupd, applyUpdate e _ now, hget', ?_, rfl, rfl, rfl, rfl, hnow⟩
    show (applyUpdate e (buildUpdateArgsApp id site username password notes)
      now).password = password
    simp [applyUpdate, buildUpdateArgsApp, hp]

/-- Witness for C1 at the concrete unlocked vault, entry 1 and clock 200. -/
theorem update_empty_password_witness :
    get_entry sampleVault 1 = .ok sampleEntry ∧
    sampleEntry.created_at < 200 ∧
    ((buildUpdateArgsApp 1 "s" "u" "" "nn").password = none ∧
      (∃ v', update_entry sampleVault 200 (buildUpdateArgsApp 1 "s" "u" "" "nn") =
          .ok v' ∧
        ∃ e', get_entry v' 1 = .ok e' ∧ e'.password = sampleEntry.password ∧
          e'.created_at = sampleEntry.created_at ∧ e'.updated_at = 200 ∧
          e'.created_at < e'.updated_at) ∧
      ("npw" ≠ "" →
        ∃ v', update_entry sampleVault 200
            (buildUpdateArgsApp 1 "s" "u" "npw" "nn") = .ok v' ∧
          ∃ e', get_entry v' 1 = .ok e' ∧ e'.password = "npw" ∧ e'.site = "s" ∧
            e'.username = "u" ∧ e'.created_at = sampleEntry.created_at ∧
            e'.updated_at = 200 ∧ e'.created_at < e'.updated_at)) :=
  ⟨rfl, by decide,
    update_empty_password_means_keep sampleVault sampleKey 1 200 sampleEntry rfl rfl
      (by decide) "s" "u" "npw" "nn"⟩

/-- C5: reading back the entry whose id `add` just returned yields an entry
with the same site, username, password and notes, and with
`created_at = updated_at`; the `App.tsx` frontend relies on this by fetching
the new id immediately and displaying the fetched entry as `selected`. -/
theorem add_get_roundtrip (v : Vault) (k : SessionKey) (now : Nat)
    (site username password : String) (notes : Option String)
    (hv : v.session = .Unlocked k)
    (hids : ∀ e ∈ v.entries, e.id < v.nextId) :
    (∃ v' id, add_entry v now site username password notes = .ok (v', id) ∧
      ∃ e, get_entry v' id = .ok e ∧ e.id = id ∧ e.site = site ∧
        e.username = username ∧ e.password = password ∧ e.notes = notes ∧
        e.created_at = now ∧ e.updated_at = now ∧
        e.created_at = e.updated_at) ∧
    (∀ (st : AppState) (notesBox : String), ∃ st2 v2,
        handleAddApp st v now site username password notesBox = .ok (st2, v2) ∧
        ∃ ent, st2.selected = some ent ∧ ent.site = site ∧
          ent.username = username ∧ ent.password = password ∧
          ent.created_at = ent.updated_at) := by
  constructor
  · obtain ⟨hadd, hget⟩ := get_after_add hv hids now site username password notes
    exact ⟨_, _, hadd, _, hget, rfl, rfl, rfl, rfl, rfl, rfl, rfl, rfl⟩
  · intro st notesBox
    obtain ⟨hadd, hget⟩ := get_after_add hv hids now site username password
      (if jsTrim notesBox = "" then none else some notesBox)
    simp only [handleAddApp, hadd, hget]
    exact ⟨_, _, rfl, _, rfl, rfl, rfl, rfl, rfl⟩

/-- Witness for C5 at the concrete unlocked vault. -/
theorem add_get_roundtrip_witness :
    sampleVault.session = .Unlocked sampleKey ∧
    (∀ e ∈ sampleVault.entries, e.id < sampleVault.nextId) ∧
    ((∃ v' id, add_entry sampleVault 300 "s2" "bob" "pw2" (some "m") =
        .ok (v', id) ∧
      ∃ e, get_entry v' id = .ok e ∧ e.id = id ∧ e.site = "s2" ∧
        e.username = "bob" ∧ e.password = "pw2" ∧ e.notes = some "m" ∧
        e.created_at = 300 ∧ e.updated_at = 300 ∧
        e.created_at = e.updated_at) ∧
    (∀ (st : AppState) (notesBox : String), ∃ st2 v2,
        handleAddApp st sampleVault 300 "s2" "bob" "pw2" notesBox =
          .ok (st2, v2) ∧
        ∃ ent, st2.selected = some ent ∧ ent.site = "s2" ∧
          ent.username = "bob" ∧ ent.password = "pw2" ∧
          ent.created_at = ent.updated_at)) :=
  ⟨rfl, by decide,
    add_get_roundtrip sampleVault sampleKey 300 "s2" "bob" "pw2" (some "m") rfl
      (by decide)⟩

/-- C4: exporting under the session key derived from passphrase P and then
importing the blob into any vault unlocked with the same key appends entries
equal in content (site, username, password, notes) to the originals with fresh
ids (at or above the destination's id counter, colliding with no existing id),
reports the original entry count, and importing the same blob twice appends
two copies; the `App.tsx` frontend passes the backup bytes through
unmodified. -/
theorem backup_export_import_roundtrip (v w : Vault) (k : SessionKey)
    (now now2 : Nat) (hv : v.session = .Unlocked k)
    (hw : w.session = .Unlocked k)
    (hwids : ∀ e ∈ w.entries, e.id < w.nextId) (bytes : List Nat) :
    ∃ blob, export_backup v = .ok blob ∧
      (∃ w1 n, import_backup w now blob = .ok (w1, n) ∧
        n = v.entries.length ∧
        w1.entries.map content = w.entries.map content ++ v.entries.map content ∧
        (∀ e ∈ w1.entries, e ∈ w.entries ∨
          (w.nextId ≤ e.id ∧ ∀ e' ∈ w.entries, e'.id ≠ e.id)) ∧
        ∃ w2 n2, import_backup w1 now2 blob = .ok (w2, n2) ∧
          n2 = v.entries.length ∧
          w2.entries.map content =
            (w.entries.map content ++ v.entries.map content) ++
              v.entries.map content) ∧
      importRequestBytes (exportFileBytes bytes) = bytes := by
  have himp : ∀ (u : Vault) (tnow : Nat), u.session = .Unlocked k →
      import_backup u tnow ⟨backupVersion, cipherSeal k (v.entries.map content)⟩ =
        .ok (addContents tnow u (v.entries.map content),
          (v.entries.map content).length) := by
    intro u tnow hu
    simp [import_backup, hu, cipherOpen_cipherSeal]
  refine ⟨⟨backupVersion, cipherSeal k (v.entries.map content)⟩, ?_, ?_, rfl⟩
  · simp [export_backup, hv]
  · refine ⟨_, _, himp w now hw, by simp, addContents_entries now _ w, ?_, ?_⟩
    · intro e he
      rcases addContents_mem now _ w e he with h | h
      · exact Or.inl h
      · exact Or.inr ⟨h, fun e' he' =>
          Nat.ne_of_lt (Nat.lt_of_lt_of_le (hwids e' he') h)⟩
    · refine ⟨_, _, himp _ now2 ?_, by simp, ?_⟩
      · rw [addContents_session]
        exact hw
      · rw [addContents_entries, addContents_entries]

/-- Witness for C4 exporting the concrete vault into itself, twice. -/
theorem backup_roundtrip_witness :
    sampleVault.session = .Unlocked sampleKey ∧
    (∀ e ∈ sampleVault.entries, e.id < sampleVault.nextId) ∧
    (∃ blob, export_backup sampleVault = .ok blob ∧
      (∃ w1 n, import_backup sampleVault 300 blob = .ok (w1, n) ∧
        n = sampleVault.entries.length ∧
        w1.entries.map content =
          sampleVault.entries.map content ++ sampleVault.entries.map content ∧
        (∀ e ∈ w1.entries, e ∈ sampleVault.entries ∨
          (sampleVault.nextId ≤ e.id ∧
            ∀ e' ∈ sampleVault.entries, e'.id ≠ e.id)) ∧
        ∃ w2 n2, import_backup w1 400 blob = .ok (w2, n2) ∧
          n2 = sampleVault.entries.length ∧
          w2.entries.map content =
            (sampleVault.entries.map content ++ sampleVault.entries.map content)
              ++ sampleVault.entries.map content) ∧
      importRequestBytes (exportFileBytes [7, 3, 255]) = [7, 3, 255]) :=
  ⟨rfl, by decide,
    backup_export_import_roundtrip sampleVault sampleVault sampleKey 300 400 rfl
      rfl (by decide) [7, 3, 255]⟩

end PasswordVault
